import Mathlib

/-!
# IoTMonitoringApp: the weather-warning pipeline of `backend/main.go`

A shallow embedding of the warning data model, the query path
(`filterAndPaginateWarnings`, `weatherWarningHandler`), the periodic fetch
(`fetchWeatherWarnings`, `periodicWeatherUpdate`), the notification pass
(`processWarningsAndNotify`, `isSensorInArea`, `sendWebhookNotification`) and
the mutex-protected cache, followed by theorems about them.

Modelling conventions.

* A Go `string` is a Lean `String`.  The feed is decoded by `encoding/json`,
  which only produces valid UTF-8, and on valid UTF-8 the byte-wise
  `strings.Contains` coincides with containment of the character sequences.
* `strings.ToLower` and `strings.ToUpper` belong to the Go standard library
  (they depend on the Unicode case tables).  They are carried in a `GoStrings`
  record and every general theorem holds for arbitrary such functions;
  `asciiStrings` is the instance used for concrete ASCII examples.
* A Go `int` is an `Int` wrapped into the signed 64-bit range by `wrapInt`
  after every arithmetic operation.
* A Go slice is a `List` (the `nil` slice and the empty slice are identified).
  A slice expression that would panic yields `none`.
* `float64` values are never computed with by the embedded code; they are
  carried as `Float64` values.
-/

namespace IoTMonitoring

/-! ## Go runtime pieces -/

/-- The two case-mapping functions of Go's `strings` package used by the program. -/
structure GoStrings where
  ToLower : String → String
  ToUpper : String → String

/-- Go's `strings.Contains s substr`: `substr` occurs in `s` as a contiguous block. -/
def stringsContainsAux : List Char → List Char → Bool
  | [], substr => substr.isEmpty
  | c :: cs, substr => substr.isPrefixOf (c :: cs) || stringsContainsAux cs substr

/-- Go's `strings.Contains`. -/
def stringsContains (s substr : String) : Bool :=
  stringsContainsAux s.data substr.data

/-- Lower-casing of one ASCII letter, every other character unchanged. -/
def asciiLowerChar (c : Char) : Char :=
  if 65 ≤ c.toNat ∧ c.toNat ≤ 90 then Char.ofNat (c.toNat + 32) else c

/-- Upper-casing of one ASCII letter, every other character unchanged. -/
def asciiUpperChar (c : Char) : Char :=
  if 97 ≤ c.toNat ∧ c.toNat ≤ 122 then Char.ofNat (c.toNat - 32) else c

/-- What `strings.ToLower` and `strings.ToUpper` do on ASCII text. -/
def asciiStrings : GoStrings where
  ToLower := fun s => String.mk (s.data.map asciiLowerChar)
  ToUpper := fun s => String.mk (s.data.map asciiUpperChar)

/-- Wrap an integer into the range of a 64-bit Go `int`. -/
def wrapInt (x : Int) : Int :=
  (x + 9223372036854775808) % 18446744073709551616 - 9223372036854775808

/-- A value of Go's `float64`. -/
inductive Float64 where
  | finite (q : Rat)
  | posInf
  | negInf
  | nan

/-- A decoded `interface{}` value as produced by `encoding/json`. -/
inductive JSONValue where
  | null
  | bool (b : Bool)
  | number (x : Float64)
  | string (s : String)
  | array (xs : List JSONValue)
  | object (fields : List (String × JSONValue))

/-- The slice expression `xs[lo:hi]`; `none` is the run-time panic
"slice bounds out of range".  Go checks `hi` against the capacity, which is at
least the length; at its only use `hi` never exceeds the length. -/
def sliceExpr {α : Type} (xs : List α) (lo hi : Int) : Option (List α) :=
  if 0 ≤ lo ∧ lo ≤ hi ∧ hi ≤ (xs.length : Int) then
    some ((xs.drop lo.toNat).take (hi - lo).toNat)
  else none

/-! ## Data model (`main.go` lines 71-153) -/

structure MhoClassification where
  En : String
  Sv : String
  Code : String

structure Event where
  En : String
  Sv : String
  Code : String
  MhoClassification : MhoClassification

structure AreaName where
  En : String
  Sv : String

structure Geometry where
  Type_ : String
  Coordinates : JSONValue

structure GeoJSONFeature where
  Type_ : String
  Geometry : Geometry
  Properties : List (String × JSONValue)

structure WarningLevel where
  En : String
  Sv : String
  Code : String

structure EventDescription where
  En : String
  Sv : String
  Code : String

structure Title where
  En : String
  Sv : String
  Code : String

structure Text where
  En : String
  Sv : String

structure Description where
  Title : Title
  Text : Text

structure AffectedArea where
  ID : Int
  Sv : String
  En : String

structure WarningArea where
  ID : Int
  Area : GeoJSONFeature
  AreaName : AreaName
  ApproximateStart : String
  ApproximateEnd : String
  NormalProbability : Bool
  WarningLevel : WarningLevel
  EventDescription : EventDescription
  Published : String
  Descriptions : List Description
  AffectedAreas : List AffectedArea

structure Warning where
  ID : Int
  Event : Event
  NormalProbability : Bool
  AreaName : AreaName
  WarningAreas : List WarningArea
  Descriptions : List Description

/-! ## `filterAndPaginateWarnings` (`main.go` lines 642-698) -/

/-- The innermost loop (lines 660-666) over the affected areas of one warning
area.  The state is `(areaFound, areaMatches, matchingAffectedAreas)`. -/
def affectedAreasLoop (L : GoStrings) (areaName : String) :
    List AffectedArea → Bool × Bool × List AffectedArea → Bool × Bool × List AffectedArea
  | [], st => st
  | affectedArea :: rest, (areaFound, areaMatches, matchingAffectedAreas) =>
    if stringsContains (L.ToLower affectedArea.Sv) (L.ToLower areaName) then
      affectedAreasLoop L areaName rest (true, true, matchingAffectedAreas ++ [affectedArea])
    else
      affectedAreasLoop L areaName rest (areaFound, areaMatches, matchingAffectedAreas)

/-- The loop (lines 656-673) over the warning areas of one warning.  The state
is `(areaFound, matchingWarningAreas)`. -/
def warningAreasLoop (L : GoStrings) (areaName : String) :
    List WarningArea → Bool × List WarningArea → Bool × List WarningArea
  | [], st => st
  | warningArea :: rest, (areaFound, matchingWarningAreas) =>
    match affectedAreasLoop L areaName warningArea.AffectedAreas (areaFound, false, []) with
    | (areaFound1, areaMatches, matchingAffectedAreas) =>
      if areaMatches then
        warningAreasLoop L areaName rest
          (areaFound1,
            matchingWarningAreas ++ [{ warningArea with AffectedAreas := matchingAffectedAreas }])
      else
        warningAreasLoop L areaName rest (areaFound1, matchingWarningAreas)

/-- The outer loop (lines 644-684); the accumulator is `filteredWarnings`. -/
def warningsLoop (L : GoStrings) (eventType areaName : String) :
    List Warning → List Warning → List Warning
  | [], filteredWarnings => filteredWarnings
  | warning :: rest, filteredWarnings =>
    if eventType ≠ "" ∧ warning.Event.Code ≠ eventType then
      warningsLoop L eventType areaName rest filteredWarnings
    else if areaName ≠ "" then
      match warningAreasLoop L areaName warning.WarningAreas (false, []) with
      | (areaFound, matchingWarningAreas) =>
        if areaFound then
          warningsLoop L eventType areaName rest
            (filteredWarnings ++ [{ warning with WarningAreas := matchingWarningAreas }])
        else
          warningsLoop L eventType areaName rest filteredWarnings
    else
      warningsLoop L eventType areaName rest (filteredWarnings ++ [warning])

/-- The value of the local `filteredWarnings` when the loop has finished. -/
def filteredWarnings (L : GoStrings) (warnings : List Warning) (eventType areaName : String) :
    List Warning :=
  warningsLoop L eventType areaName warnings []

/-- The pagination part (lines 686-697) applied to the filtered list. -/
def paginate (filtered : List Warning) (page pageSize : Int) : Option (List Warning) :=
  let start := wrapInt (wrapInt (page - 1) * pageSize)
  if start ≥ (filtered.length : Int) then some []
  else
    let end0 := wrapInt (start + pageSize)
    let end1 := if end0 > (filtered.length : Int) then (filtered.length : Int) else end0
    sliceExpr filtered start end1

/-- The function `filterAndPaginateWarnings`. -/
def filterAndPaginateWarnings (L : GoStrings) (warnings : List Warning)
    (eventType areaName : String) (page pageSize : Int) : Option (List Warning) :=
  paginate (filteredWarnings L warnings eventType areaName) page pageSize

/-! ## The filter in the words of the specification -/

/-- Case-insensitive containment: `sub` occurs in `s` once both are lower-cased. -/
def containsIgnoreCase (L : GoStrings) (s sub : String) : Bool :=
  stringsContains (L.ToLower s) (L.ToLower sub)

/-- An affected area matches when its Swedish name contains `areaName`, ignoring case. -/
def specAffectedMatches (L : GoStrings) (areaName : String) (aa : AffectedArea) : Bool :=
  containsIgnoreCase L aa.Sv areaName

/-- A warning area matches when at least one of its affected areas matches. -/
def specAreaMatches (L : GoStrings) (areaName : String) (wa : WarningArea) : Bool :=
  wa.AffectedAreas.any (specAffectedMatches L areaName)

/-- A warning matches when at least one of its warning areas matches. -/
def specWarningMatches (L : GoStrings) (areaName : String) (w : Warning) : Bool :=
  w.WarningAreas.any (specAreaMatches L areaName)

/-- A warning area narrowed to its matching affected areas, in their order. -/
def specNarrowArea (L : GoStrings) (areaName : String) (wa : WarningArea) : WarningArea :=
  { wa with AffectedAreas := wa.AffectedAreas.filter (specAffectedMatches L areaName) }

/-- A warning narrowed to its matching warning areas, each narrowed in turn. -/
def specNarrowWarning (L : GoStrings) (areaName : String) (w : Warning) : Warning :=
  { w with WarningAreas :=
      (w.WarningAreas.filter (specAreaMatches L areaName)).map (specNarrowArea L areaName) }

/-- What the filter does with one warning: drop it (`none`) or keep it, possibly narrowed. -/
def specSelect (L : GoStrings) (eventType areaName : String) (w : Warning) : Option Warning :=
  if eventType ≠ "" ∧ w.Event.Code ≠ eventType then none
  else if areaName ≠ "" then
    (if specWarningMatches L areaName w then some (specNarrowWarning L areaName w) else none)
  else some w

/-! ## `weatherWarningHandler` (`main.go` lines 700-730) -/

/-- The query path of `weatherWarningHandler`.  `warnings` is the copy of
`cachedWarnings` taken under `warningsMutex`; `page` and `pageSize` are the
values returned by `strconv.Atoi` on the query parameters `page` and
`pageSize`, whose error result the handler discards (`Atoi` returns `0`
together with a syntax error).  The result is the `Warnings` field of the
response; `none` stands for the panic of the slice expression. -/
def weatherWarningHandler (L : GoStrings) (warnings : List Warning)
    (eventType areaName : String) (page pageSize : Int) : Option (List Warning) :=
  let page1 := if page < 1 then 1 else page
  let pageSize1 := if pageSize < 1 then 10 else pageSize
  filterAndPaginateWarnings L warnings eventType areaName page1 pageSize1

/-! ## Sensors, companies, users, webhooks (`models/models.go`) -/

/-- The columns of `models.Sensor` (the `gorm.Model` timestamps are bookkeeping
of the ORM and are left out). -/
structure Sensor where
  ID : Nat
  Name : String
  Latitude : Float64
  Longitude : Float64
  Status : String
  CompanyID : Nat
  Description : String

structure User where
  ID : Nat
  Email : String
  PasswordHash : String
  CompanyID : Nat

structure Webhook where
  ID : Nat
  URL : String
  UserID : Nat

/-- A `models.Company` as loaded by `db.Preload("Sensors").Find`. -/
structure Company where
  ID : Nat
  Name : String
  Sensors : List Sensor

/-! ## Logging and effects -/

/-- One line written with `log.Printf`, named after the place that writes it. -/
inductive LogLine where
  | fetchTransportError (err : String)
  | fetchDecodeError (err : String)
  | fetchedFromSMHI (count : Nat)
  | fetchedWarning (index : Nat) (warning : Warning)
  | tickFetchError (err : String)
  | fetchedAndCached (count : Nat)
  | companiesError (err : String)
  | usersError (companyID : Nat) (err : String)
  | webhooksError (userID : Nat) (err : String)
  | marshalError (err : String)
  | webhookSendError (err : String)
  | webhookStatus (url : String) (statusCode : Int)

/-- An observable action of the notification pass. -/
inductive Effect where
  | statusUpdate (sensor : Sensor)
  | delivery (url : String) (sensor : Sensor) (warning : Warning)
  | logged (line : LogLine)

/-- The database calls of the notification pass over an abstract database
state `σ`.  A query returns its result (or the error of the ORM) and the state
it leaves behind, so that failures may come and go between calls. -/
structure Database (σ : Type) where
  preloadCompanies : σ → Except String (List Company) × σ
  saveSensor : Sensor → σ → σ
  findUsers : Nat → σ → Except String (List User) × σ
  findWebhooks : Nat → σ → Except String (List Webhook) × σ

/-! ## `fetchWeatherWarnings` and `periodicWeatherUpdate` (`main.go` lines 503-526, 620-640) -/

/-- The log lines of the loop at lines 636-638. -/
def fetchedWarningLines : Nat → List Warning → List LogLine
  | _, [] => []
  | i, warning :: rest => LogLine.fetchedWarning i warning :: fetchedWarningLines (i + 1) rest

/-- The function `fetchWeatherWarnings`.  `httpGet` is the outcome of `http.Get`
(the response body, or the transport error) and `decode` is the JSON decoder.
Returns the result together with the lines logged. -/
def fetchWeatherWarnings (httpGet : Except String String)
    (decode : String → Except String (List Warning)) :
    Except String (List Warning) × List LogLine :=
  match httpGet with
  | .error err =>
    (.error ("failed to fetch warnings: " ++ err), [LogLine.fetchTransportError err])
  | .ok body =>
    match decode body with
    | .error err =>
      (.error ("failed to decode warnings: " ++ err), [LogLine.fetchDecodeError err])
    | .ok warnings =>
      (.ok warnings,
        LogLine.fetchedFromSMHI warnings.length :: fetchedWarningLines 0 warnings)

/-- The state touched by the scheduler: the cache, the notification passes
started with `go processWarningsAndNotify(warnings)`, and the log. -/
structure ServerState where
  cachedWarnings : List Warning
  notifyPasses : List (List Warning)
  logLines : List LogLine

/-- One iteration of the loop of `periodicWeatherUpdate`, run when the ticker fires. -/
def periodicWeatherUpdateTick (httpGet : Except String String)
    (decode : String → Except String (List Warning)) (st : ServerState) : ServerState :=
  match fetchWeatherWarnings httpGet decode with
  | (.error err, lines) =>
    { st with logLines := st.logLines ++ lines ++ [LogLine.tickFetchError err] }
  | (.ok warnings, lines) =>
    { cachedWarnings := warnings
      notifyPasses := st.notifyPasses ++ [warnings]
      logLines := st.logLines ++ lines ++ [LogLine.fetchedAndCached warnings.length] }

/-- The read of the cache at the head of `weatherWarningHandler` (lines 701-703). -/
def readCache (st : ServerState) : List Warning :=
  st.cachedWarnings

/-! ## `isSensorInArea` and `processWarningsAndNotify` (`main.go` lines 528-591) -/

/-- The function `isSensorInArea`. -/
def isSensorInArea (_lat _long : Float64) (_area : GeoJSONFeature) : Bool :=
  false

/-- The loop at lines 568-575 collecting the webhooks of the users of a company.
The state is `(webhooks, database, trace)`. -/
def userWebhooksLoop {σ : Type} (db : Database σ) :
    List User → List Webhook × σ × List Effect → List Webhook × σ × List Effect
  | [], st => st
  | user :: rest, (webhooks, s, trace) =>
    match db.findWebhooks user.ID s with
    | (.error err, s1) =>
      userWebhooksLoop db rest
        (webhooks, s1, trace ++ [Effect.logged (LogLine.webhooksError user.ID err)])
    | (.ok userWebhooks, s1) =>
      userWebhooksLoop db rest (webhooks ++ userWebhooks, s1, trace)

/-- The loop at lines 578-580: one `go sendWebhookNotification` per webhook. -/
def sendLoop (sensor : Sensor) (warning : Warning) : List Webhook → List Effect → List Effect
  | [], trace => trace
  | webhook :: rest, trace =>
    sendLoop sensor warning rest (trace ++ [Effect.delivery webhook.URL sensor warning])

/-- The loop at lines 549-582 over the sensors of one company.  The containment
check is the parameter `inArea`, so that what is proved of the loops holds for
`isSensorInArea` as it stands and for any check put in its place. -/
def sensorsLoop {σ : Type} (db : Database σ) (inArea : Float64 → Float64 → GeoJSONFeature → Bool)
    (level : String) (warning : Warning) (warningArea : WarningArea) (company : Company) :
    List Sensor → σ × List Effect → σ × List Effect
  | [], st => st
  | sensor :: rest, (s, trace) =>
    if inArea sensor.Latitude sensor.Longitude warningArea.Area then
      let sensor1 : Sensor := { sensor with Status := level }
      let s1 := db.saveSensor sensor1 s
      let trace1 := trace ++ [Effect.statusUpdate sensor1]
      match db.findUsers company.ID s1 with
      | (.error err, s2) =>
        sensorsLoop db inArea level warning warningArea company rest
          (s2, trace1 ++ [Effect.logged (LogLine.usersError company.ID err)])
      | (.ok users, s2) =>
        match userWebhooksLoop db users ([], s2, trace1) with
        | (webhooks, s3, trace3) =>
          sensorsLoop db inArea level warning warningArea company rest
            (s3, sendLoop sensor1 warning webhooks trace3)
    else
      sensorsLoop db inArea level warning warningArea company rest (s, trace)

/-- The loop at lines 548-583 over the companies. -/
def companiesLoop {σ : Type} (db : Database σ) (inArea : Float64 → Float64 → GeoJSONFeature → Bool)
    (level : String) (warning : Warning) (warningArea : WarningArea) :
    List Company → σ × List Effect → σ × List Effect
  | [], st => st
  | company :: rest, st =>
    companiesLoop db inArea level warning warningArea rest
      (sensorsLoop db inArea level warning warningArea company company.Sensors st)

/-- The loop at lines 537-584 over the warning areas of one qualifying warning. -/
def notifyAreasLoop {σ : Type} (db : Database σ) (inArea : Float64 → Float64 → GeoJSONFeature → Bool)
    (level : String) (warning : Warning) :
    List WarningArea → σ × List Effect → σ × List Effect
  | [], st => st
  | warningArea :: rest, (s, trace) =>
    match db.preloadCompanies s with
    | (.error err, s1) =>
      notifyAreasLoop db inArea level warning rest
        (s1, trace ++ [Effect.logged (LogLine.companiesError err)])
    | (.ok companies, s1) =>
      notifyAreasLoop db inArea level warning rest
        (companiesLoop db inArea level warning warningArea companies (s1, trace))

/-- The body of the outer loop (lines 531-584) for one warning. -/
def notifyWarning {σ : Type} (L : GoStrings) (db : Database σ)
    (inArea : Float64 → Float64 → GeoJSONFeature → Bool) (warning : Warning)
    (st : σ × List Effect) : σ × List Effect :=
  let level := L.ToUpper warning.Event.Code
  if level ≠ "ORANGE" ∧ level ≠ "RED" then st
  else notifyAreasLoop db inArea level warning warning.WarningAreas st

/-- The outer loop (lines 530-585) over the warnings. -/
def notifyWarningsLoop {σ : Type} (L : GoStrings) (db : Database σ)
    (inArea : Float64 → Float64 → GeoJSONFeature → Bool) :
    List Warning → σ × List Effect → σ × List Effect
  | [], st => st
  | warning :: rest, st =>
    notifyWarningsLoop L db inArea rest (notifyWarning L db inArea warning st)

/-- The function `processWarningsAndNotify`, started on database state `s`:
the state it leaves and the effects it performed, in order. -/
def processWarningsAndNotify {σ : Type} (L : GoStrings) (db : Database σ)
    (warnings : List Warning) (s : σ) : σ × List Effect :=
  notifyWarningsLoop L db isSensorInArea warnings (s, [])

/-- A warning reaches the notification steps: its upper-cased code is `ORANGE` or `RED`. -/
def specQualifies (L : GoStrings) (w : Warning) : Bool :=
  L.ToUpper w.Event.Code = "ORANGE" ∨ L.ToUpper w.Event.Code = "RED"

/-! ## Concrete values used in examples -/

/-- A GeoJSON position `[longitude, latitude]`. -/
def position (long lat : Rat) : JSONValue :=
  JSONValue.array [JSONValue.number (Float64.finite long), JSONValue.number (Float64.finite lat)]

/-- The ring of the square with corners `(lo, lo)` and `(hi, hi)`. -/
def squareRing (lo hi : Rat) : JSONValue :=
  JSONValue.array
    [position lo lo, position hi lo, position hi hi, position lo hi, position lo lo]

/-- A `Polygon` feature with the given rings. -/
def polygonFeature (rings : List JSONValue) : GeoJSONFeature :=
  { Type_ := "Feature"
    Geometry := { Type_ := "Polygon", Coordinates := JSONValue.array rings }
    Properties := [] }

/-- The square `[0,10] x [0,10]`. -/
def squareArea : GeoJSONFeature :=
  polygonFeature [squareRing 0 10]

/-- The square `[0,10] x [0,10]` with the hole `[4,6] x [4,6]`. -/
def squareWithHoleArea : GeoJSONFeature :=
  polygonFeature [squareRing 0 10, squareRing 4 6]

def exampleAffected (i : Int) (sv : String) : AffectedArea :=
  { ID := i, Sv := sv, En := "" }

def exampleArea (i : Int) (affected : List AffectedArea) : WarningArea :=
  { ID := i, Area := squareArea, AreaName := ⟨"", ""⟩, ApproximateStart := "",
    ApproximateEnd := "", NormalProbability := true, WarningLevel := ⟨"", "", ""⟩,
    EventDescription := ⟨"", "", ""⟩, Published := "", Descriptions := [],
    AffectedAreas := affected }

def exampleWarning (i : Int) (code : String) (areas : List WarningArea) : Warning :=
  { ID := i, Event := ⟨"", "", code, ⟨"", "", ""⟩⟩, NormalProbability := true,
    AreaName := ⟨"", ""⟩, WarningAreas := areas, Descriptions := [] }

/-- A warning whose single area names Stockholm and Uppsala. -/
def stockholmUppsala : Warning :=
  exampleWarning 1 "YELLOW"
    [exampleArea 1 [exampleAffected 1 "Stockholm", exampleAffected 2 "Uppsala"]]

/-- The same warning with only Stockholm left. -/
def stockholmOnly : Warning :=
  exampleWarning 1 "YELLOW" [exampleArea 1 [exampleAffected 1 "Stockholm"]]

/-- A sensor at the centre of `squareArea`. -/
def exampleSensor : Sensor :=
  { ID := 7, Name := "roof", Latitude := Float64.finite 5, Longitude := Float64.finite 5,
    Status := "", CompanyID := 1, Description := "" }

/-- A database with one company owning `exampleSensor`, one user and one webhook;
the state counts the calls of `saveSensor`. -/
def exampleDatabase : Database Nat where
  preloadCompanies := fun s => (.ok [{ ID := 1, Name := "acme", Sensors := [exampleSensor] }], s)
  saveSensor := fun _ s => s + 1
  findUsers := fun _ s =>
    (.ok [{ ID := 3, Email := "ops@acme.example", PasswordHash := "", CompanyID := 1 }], s)
  findWebhooks := fun _ s => (.ok [{ ID := 9, URL := "https://acme.example/hook", UserID := 3 }], s)

/-! ## Erasing the English names of affected areas -/

/-- An affected area with its `En` field blanked. -/
def eraseEnAffected (aa : AffectedArea) : AffectedArea :=
  { aa with En := "" }

/-- A warning area with the `En` field of every affected area blanked. -/
def eraseEnArea (wa : WarningArea) : WarningArea :=
  { wa with AffectedAreas := wa.AffectedAreas.map eraseEnAffected }

/-- A warning with the `En` field of every affected area blanked: two warnings
with the same image differ at most in those fields. -/
def eraseEn (w : Warning) : Warning :=
  { w with WarningAreas := w.WarningAreas.map eraseEnArea }

/-- A warning whose only affected area is called Uppsala in Swedish and
Stockholm in English. -/
def englishStockholm : Warning :=
  exampleWarning 3 "YELLOW" [exampleArea 1 [{ ID := 1, Sv := "Uppsala", En := "Stockholm" }]]

/-! ## `sendWebhookNotification` (`main.go` lines 593-618) -/

/-- The map marshalled as the request body (lines 594-600). -/
structure WebhookPayload where
  sensor_id : Nat
  sensor_name : String
  status : String
  warning : String
  timestamp : Int

/-- What one call of `sendWebhookNotification` does: it calls `http.Post`, it
writes a log line.  `postCalled` records the call with its arguments; what the
HTTP client does on the wire during that call (following redirects, sending
nothing for a malformed address) belongs to the library and is not recorded. -/
inductive SendEffect where
  | postCalled (url : String) (contentType : String) (body : String)
  | logged (line : LogLine)

/-- The function `sendWebhookNotification`.  `now` is the value of `time.Now()`,
`marshal` is `json.Marshal`, and `post` is `http.Post`, answering with the status
code of the response it hands back (`resp.StatusCode`) or with its error. -/
def sendWebhookNotification (now : Int) (marshal : WebhookPayload → Except String String)
    (post : String → String → String → Except String Int)
    (url : String) (sensor : Sensor) (warning : Warning) : List SendEffect :=
  let payload : WebhookPayload :=
    { sensor_id := sensor.ID
      sensor_name := sensor.Name
      status := sensor.Status
      warning := warning.Event.En
      timestamp := now }
  match marshal payload with
  | .error err => [SendEffect.logged (LogLine.marshalError err)]
  | .ok data =>
    match post url "application/json" data with
    | .error err =>
      [SendEffect.postCalled url "application/json" data,
        SendEffect.logged (LogLine.webhookSendError err)]
    | .ok statusCode =>
      if statusCode ≥ 300 then
        [SendEffect.postCalled url "application/json" data,
          SendEffect.logged (LogLine.webhookStatus url statusCode)]
      else
        [SendEffect.postCalled url "application/json" data]

/-- The effect is the log line reporting `statusCode` for `url`. -/
def isStatusLine (url : String) (statusCode : Int) : SendEffect → Bool
  | SendEffect.logged (LogLine.webhookStatus u c) => u = url && c = statusCode
  | _ => false

/-- The effect is a log line of any kind. -/
def isLogged : SendEffect → Bool
  | SendEffect.logged _ => true
  | _ => false

/-- The effect is a call of `http.Post`. -/
def isPostCall : SendEffect → Bool
  | SendEffect.postCalled _ _ _ => true
  | _ => false

/-- The delivery was treated as failed: the status was logged for the subscriber URL. -/
def deliveryLoggedAsFailed (url : String) (statusCode : Int) (effects : List SendEffect) : Bool :=
  effects.any (isStatusLine url statusCode)

/-- The number of delivery attempts: how many times `http.Post` was called. -/
def postCalls (effects : List SendEffect) : Nat :=
  effects.countP isPostCall

/-- A marshaller that always succeeds. -/
def exampleMarshal (p : WebhookPayload) : Except String String :=
  .ok p.sensor_name

/-- An `http.Post` that hands back a response with status `statusCode`. -/
def answering (statusCode : Int) (_url _contentType _body : String) : Except String Int :=
  .ok statusCode

/-! ## Counting deliveries -/

/-- The effect is a delivery to `url` for the sensor `sensorID` and the warning `warningID`. -/
def isDeliveryFor (url : String) (sensorID : Nat) (warningID : Int) : Effect → Bool
  | Effect.delivery u sensor warning =>
    decide (u = url) && decide (sensor.ID = sensorID) && decide (warning.ID = warningID)
  | _ => false

/-- The effect is a log line: neither a sensor-status update nor a delivery. -/
def isLogLine : Effect → Bool
  | Effect.logged _ => true
  | _ => false

/-- The number of deliveries made for one (subscriber, sensor, warning) triple. -/
def deliveryCount (url : String) (sensorID : Nat) (warningID : Int) (trace : List Effect) : Nat :=
  trace.countP (isDeliveryFor url sensorID warningID)

/-- A qualifying warning with two warning areas, both the square `[0,10] x [0,10]`
that has `exampleSensor`, at `(5, 5)`, strictly inside. -/
def twoAreaRed : Warning :=
  exampleWarning 2 "red" [exampleArea 1 [], exampleArea 2 []]

/-! ## The cache under `warningsMutex` (`main.go` lines 516-518 and 701-703)

`periodicWeatherUpdate` runs `Lock(); cachedWarnings = warnings; Unlock()` and
every call of `weatherWarningHandler` runs `Lock(); warnings := cachedWarnings;
Unlock()`.  A slice value is three machine words, and copying it is three word
copies; threads are interleaved word copy by word copy.  Nothing in the model
ties a word copy to the mutex: a thread only waits at `Lock()`. -/

/-- The three words of a slice value. -/
structure SliceHeader where
  data : Nat
  len : Nat
  cap : Nat
deriving DecidableEq

/-- Where a thread stands in `Lock(); copy word 0; copy word 1; copy word 2; Unlock()`. -/
inductive PC where
  | beforeLock
  | word0
  | word1
  | word2
  | beforeUnlock
  | finished
deriving DecidableEq

/-- The thread of `periodicWeatherUpdate`, or the thread of one request. -/
inductive Thread where
  | writer
  | reader (i : Nat)
deriving DecidableEq

/-- One request: its position and its local variable `warnings`. -/
structure ReaderState where
  pc : PC
  warnings : SliceHeader

/-- The mutex (its holder, if any), the shared variable, and the threads. -/
structure CacheState where
  holder : Option Thread
  cachedWarnings : SliceHeader
  writerPc : PC
  readers : Nat → ReaderState

/-- One step of the writer, which stores the slice `new`. -/
def writerStep (new : SliceHeader) (st : CacheState) : CacheState :=
  match st.writerPc with
  | PC.beforeLock =>
    if st.holder = none then { st with holder := some Thread.writer, writerPc := PC.word0 }
    else st
  | PC.word0 =>
    { st with cachedWarnings := { st.cachedWarnings with data := new.data }, writerPc := PC.word1 }
  | PC.word1 =>
    { st with cachedWarnings := { st.cachedWarnings with len := new.len }, writerPc := PC.word2 }
  | PC.word2 =>
    { st with cachedWarnings := { st.cachedWarnings with cap := new.cap },
              writerPc := PC.beforeUnlock }
  | PC.beforeUnlock => { st with holder := none, writerPc := PC.finished }
  | PC.finished => st

/-- The threads' table with the entry of request `i` replaced. -/
def setReader (readers : Nat → ReaderState) (i : Nat) (r : ReaderState) : Nat → ReaderState :=
  fun j => if j = i then r else readers j

/-- One step of the request `i`. -/
def readerStep (i : Nat) (st : CacheState) : CacheState :=
  let mine := (st.readers i).warnings
  match (st.readers i).pc with
  | PC.beforeLock =>
    if st.holder = none then
      { st with holder := some (Thread.reader i),
                readers := setReader st.readers i ⟨PC.word0, mine⟩ }
    else st
  | PC.word0 =>
    { st with readers :=
        setReader st.readers i ⟨PC.word1, { mine with data := st.cachedWarnings.data }⟩ }
  | PC.word1 =>
    { st with readers :=
        setReader st.readers i ⟨PC.word2, { mine with len := st.cachedWarnings.len }⟩ }
  | PC.word2 =>
    { st with readers :=
        setReader st.readers i ⟨PC.beforeUnlock, { mine with cap := st.cachedWarnings.cap }⟩ }
  | PC.beforeUnlock =>
    { st with holder := none,
              readers := setReader st.readers i ⟨PC.finished, mine⟩ }
  | PC.finished => st

/-- One step of the scheduled thread. -/
def cacheStep (new : SliceHeader) : Thread → CacheState → CacheState
  | Thread.writer, st => writerStep new st
  | Thread.reader i, st => readerStep i st

/-- An interleaving: the threads take steps in the order of the schedule. -/
def runSchedule (new : SliceHeader) : List Thread → CacheState → CacheState
  | [], st => st
  | t :: rest, st => runSchedule new rest (cacheStep new t st)

/-- The cache holds `old`, the mutex is free and no thread has started. -/
def initialCache (old : SliceHeader) : CacheState :=
  { holder := none
    cachedWarnings := old
    writerPc := PC.beforeLock
    readers := fun _ => { pc := PC.beforeLock, warnings := ⟨0, 0, 0⟩ } }

/-- The warnings a slice value denotes, the backing arrays being `heap`. -/
def sliceValue (heap : Nat → List Warning) (h : SliceHeader) : List Warning :=
  (heap h.data).take h.len

/-- The thread is between its `Lock()` and its `Unlock()`. -/
def PC.inside : PC → Bool
  | PC.word0 => true
  | PC.word1 => true
  | PC.word2 => true
  | PC.beforeUnlock => true
  | _ => false

/-- What `cachedWarnings` holds when the writer stands at the given position. -/
def writerView (old new : SliceHeader) : PC → SliceHeader
  | PC.beforeLock => old
  | PC.word0 => old
  | PC.word1 => ⟨new.data, old.len, old.cap⟩
  | PC.word2 => ⟨new.data, new.len, old.cap⟩
  | PC.beforeUnlock => new
  | PC.finished => new

/-- What a request has copied so far agrees with the shared variable `c`; once
finished it holds one of the two snapshots. -/
def readerOK (old new c : SliceHeader) (r : ReaderState) : Prop :=
  match r.pc with
  | PC.beforeLock => True
  | PC.word0 => True
  | PC.word1 => r.warnings.data = c.data
  | PC.word2 => r.warnings.data = c.data ∧ r.warnings.len = c.len
  | PC.beforeUnlock => r.warnings = c
  | PC.finished => r.warnings = old ∨ r.warnings = new

/-- The invariant of every reachable state. -/
structure CacheInv (old new : SliceHeader) (st : CacheState) : Prop where
  writer_holds : st.writerPc.inside = true ↔ st.holder = some Thread.writer
  reader_holds : ∀ i, (st.readers i).pc.inside = true ↔ st.holder = some (Thread.reader i)
  cache_view : st.cachedWarnings = writerView old new st.writerPc
  readers_ok : ∀ i, readerOK old new st.cachedWarnings (st.readers i)

/-! ## Lemmas on the loops -/

theorem affectedAreasLoop_eq (L : GoStrings) (areaName : String) (l : List AffectedArea) :
    ∀ (areaFound areaMatches : Bool) (acc : List AffectedArea),
      affectedAreasLoop L areaName l (areaFound, areaMatches, acc)
        = (areaFound || l.any (specAffectedMatches L areaName),
           areaMatches || l.any (specAffectedMatches L areaName),
           acc ++ l.filter (specAffectedMatches L areaName)) := by
  induction l with
  | nil => intro af am acc; simp [affectedAreasLoop]
  | cons aa rest ih =>
    intro af am acc
    by_cases h : stringsContains (L.ToLower aa.Sv) (L.ToLower areaName) = true
    · simp [affectedAreasLoop, ih, specAffectedMatches, containsIgnoreCase, h]
    · simp [affectedAreasLoop, ih, specAffectedMatches, containsIgnoreCase, h]

theorem warningAreasLoop_eq (L : GoStrings) (areaName : String) (l : List WarningArea) :
    ∀ (areaFound : Bool) (acc : List WarningArea),
      warningAreasLoop L areaName l (areaFound, acc)
        = (areaFound || l.any (specAreaMatches L areaName),
           acc ++ (l.filter (specAreaMatches L areaName)).map (specNarrowArea L areaName)) := by
  induction l with
  | nil => intro af acc; simp [warningAreasLoop]
  | cons wa rest ih =>
    intro af acc
    by_cases h : specAreaMatches L areaName wa = true
    · have h' := h
      unfold specAreaMatches at h'
      simp [warningAreasLoop, affectedAreasLoop_eq, ih, h, h', specNarrowArea, Bool.or_assoc]
    · have h' := h
      unfold specAreaMatches at h'
      simp [warningAreasLoop, affectedAreasLoop_eq, ih, h, h', Bool.or_assoc]

theorem warningsLoop_eq (L : GoStrings) (eventType areaName : String) (l : List Warning) :
    ∀ acc : List Warning,
      warningsLoop L eventType areaName l acc
        = acc ++ l.filterMap (specSelect L eventType areaName) := by
  induction l with
  | nil => intro acc; simp [warningsLoop]
  | cons w rest ih =>
    intro acc
    by_cases h1 : eventType ≠ "" ∧ w.Event.Code ≠ eventType
    · simp [warningsLoop, specSelect, h1, ih]
    · by_cases h2 : areaName ≠ ""
      · by_cases h3 : specWarningMatches L areaName w = true
        · have h3' := h3
          unfold specWarningMatches at h3'
          simp [warningsLoop, specSelect, h1, h2, h3, h3', ih, warningAreasLoop_eq,
            specNarrowWarning]
        · have h3' := h3
          unfold specWarningMatches at h3'
          simp [warningsLoop, specSelect, h1, h2, h3, h3', ih, warningAreasLoop_eq]
      · simp [warningsLoop, specSelect, h1, h2, ih]

theorem filteredWarnings_eq (L : GoStrings) (warnings : List Warning)
    (eventType areaName : String) :
    filteredWarnings L warnings eventType areaName
      = warnings.filterMap (specSelect L eventType areaName) := by
  simp [filteredWarnings, warningsLoop_eq]

theorem sliceExpr_sublist {α : Type} (xs : List α) (lo hi : Int) (r : List α)
    (h : sliceExpr xs lo hi = some r) : r.Sublist xs := by
  unfold sliceExpr at h
  split_ifs at h
  injection h with h
  subst h
  exact (List.take_sublist _ _).trans (List.drop_sublist _ _)

/-- Whatever `paginate` returns is a contiguous block of the filtered list. -/
theorem paginate_sublist (filtered : List Warning) (page pageSize : Int)
    (result : List Warning) (h : paginate filtered page pageSize = some result) :
    result.Sublist filtered := by
  simp only [paginate] at h
  split_ifs at h
  · injection h with h; subst h; exact List.nil_sublist _
  · exact sliceExpr_sublist _ _ _ _ h
  · exact sliceExpr_sublist _ _ _ _ h

theorem wrapInt_of_range (x : Int) (h1 : -9223372036854775808 ≤ x)
    (h2 : x < 9223372036854775808) : wrapInt x = x := by
  unfold wrapInt
  omega

/-- On the first page, a page size that covers the list returns the whole list. -/
theorem paginate_first_page (filtered : List Warning) (pageSize : Int)
    (h1 : (filtered.length : Int) ≤ pageSize) (h2 : pageSize < 9223372036854775808) :
    paginate filtered 1 pageSize = some filtered := by
  have hw0 : wrapInt 0 = 0 := wrapInt_of_range 0 (by omega) (by omega)
  have hlen : (0 : Int) ≤ (filtered.length : Int) := Int.ofNat_nonneg _
  have hwp : wrapInt pageSize = pageSize := wrapInt_of_range pageSize (by omega) h2
  simp only [paginate, sub_self, zero_mul, zero_add, hw0, hwp]
  by_cases hz : (0 : Int) ≥ (filtered.length : Int)
  · have : filtered.length = 0 := by omega
    have hnil : filtered = [] := List.length_eq_zero.mp this
    simp [hnil]
  · rw [if_neg hz]
    have hend : (if pageSize > (filtered.length : Int) then (filtered.length : Int)
        else pageSize) = (filtered.length : Int) := by
      split_ifs <;> omega
    rw [hend]
    simp [sliceExpr]

/-- Without overflow, pagination drops `(page-1)*pageSize` elements and keeps `pageSize`. -/
theorem paginate_drop_take (filtered : List Warning) (page pageSize : Int)
    (hpage : 1 ≤ page) (hsize : 1 ≤ pageSize) (hrange : pageSize < 9223372036854775808)
    (hmul : (page - 1) * pageSize < 9223372036854775808)
    (hlen : filtered.length < 4611686018427387904) :
    paginate filtered page pageSize
      = some ((filtered.drop ((page - 1) * pageSize).toNat).take pageSize.toNat) := by
  have hp0 : 0 ≤ page - 1 := by omega
  have hm0 : 0 ≤ (page - 1) * pageSize := mul_nonneg hp0 (by omega)
  have hple : page - 1 ≤ (page - 1) * pageSize := by nlinarith
  have hw1 : wrapInt (page - 1) = page - 1 := wrapInt_of_range _ (by omega) (by omega)
  have hcase : (page - 1) * pageSize = 0 ∨ pageSize ≤ (page - 1) * pageSize := by
    rcases eq_or_lt_of_le hp0 with h | h
    · left; rw [← h]; simp
    · right; nlinarith
  simp only [paginate, hw1]
  generalize (page - 1) * pageSize = m at hm0 hmul hple hcase ⊢
  have hw2 : wrapInt m = m := wrapInt_of_range _ (by omega) (by omega)
  simp only [hw2]
  by_cases hge : m ≥ (filtered.length : Int)
  · rw [if_pos hge]
    have : filtered.length ≤ m.toNat := by omega
    rw [List.drop_eq_nil_of_le this]
    simp
  · rw [if_neg hge]
    have hw3 : wrapInt (m + pageSize) = m + pageSize :=
      wrapInt_of_range _ (by omega) (by omega)
    rw [hw3]
    have hcond : 0 ≤ m ∧ m ≤ (if m + pageSize > (filtered.length : Int)
        then (filtered.length : Int) else m + pageSize) ∧
        (if m + pageSize > (filtered.length : Int) then (filtered.length : Int)
          else m + pageSize) ≤ (filtered.length : Int) := by
      split_ifs <;> omega
    unfold sliceExpr
    rw [if_pos hcond]
    congr 1
    apply List.take_eq_take.mpr
    rw [List.length_drop]
    split_ifs <;> omega

theorem filterMap_specSelect_area (L : GoStrings) (areaName : String) (hname : areaName ≠ "")
    (l : List Warning) :
    l.filterMap (specSelect L "" areaName)
      = (l.filter (specWarningMatches L areaName)).map (specNarrowWarning L areaName) := by
  induction l with
  | nil => simp
  | cons w rest ih =>
    by_cases h : specWarningMatches L areaName w = true
    · simp [List.filterMap_cons, specSelect, hname, h, ih]
    · simp [List.filterMap_cons, specSelect, hname, h, ih]

theorem filterMap_specSelect_event (L : GoStrings) (eventType : String) (l : List Warning) :
    l.filterMap (specSelect L eventType "")
      = l.filter (fun w => eventType = "" ∨ w.Event.Code = eventType) := by
  induction l with
  | nil => simp
  | cons w rest ih =>
    by_cases h1 : eventType = ""
    · simp [List.filterMap_cons, specSelect, h1] at ih ⊢
      exact ih
    · by_cases h2 : w.Event.Code = eventType
      · simp [List.filterMap_cons, specSelect, h1, h2, ih]
      · simp [List.filterMap_cons, specSelect, h1, h2, ih]

theorem filteredWarnings_length_le (L : GoStrings) (warnings : List Warning)
    (eventType areaName : String) :
    (filteredWarnings L warnings eventType areaName).length ≤ warnings.length := by
  rw [filteredWarnings_eq]
  exact List.length_filterMap_le _ _

theorem specSelect_ID (L : GoStrings) (eventType areaName : String) (w w' : Warning)
    (h : specSelect L eventType areaName w = some w') : w'.ID = w.ID := by
  unfold specSelect at h
  split_ifs at h <;> injection h with h <;> subst h <;> rfl

theorem filterMap_ID_sublist (L : GoStrings) (eventType areaName : String) (l : List Warning) :
    ((l.filterMap (specSelect L eventType areaName)).map Warning.ID).Sublist
      (l.map Warning.ID) := by
  induction l with
  | nil => simp
  | cons w rest ih =>
    rw [List.filterMap_cons]
    cases hsel : specSelect L eventType areaName w with
    | none => simpa using ih.cons _
    | some w' =>
      have hid := specSelect_ID L eventType areaName w w' hsel
      simp only [List.map_cons, hid]
      exact ih.cons₂ _

/-! ## The query path: filtering and pagination -/

/-- C1: with a non-empty `areaName`, every warning returned by
`filterAndPaginateWarnings` is an input warning whose `WarningAreas` are exactly
the original areas having an affected area whose `Sv` name contains `areaName`
ignoring case, in order, each with its `AffectedAreas` cut down to exactly the
matching entries, in order; and the warning naming Stockholm and Uppsala,
queried with `stock`, comes back with Stockholm only. -/
theorem area_filter_narrows_sub_structure :
    (∀ (L : GoStrings) (warnings : List Warning) (eventType areaName : String)
        (page pageSize : Int) (result : List Warning),
        areaName ≠ "" →
        filterAndPaginateWarnings L warnings eventType areaName page pageSize = some result →
        ∀ w' ∈ result, ∃ w ∈ warnings,
          w' = specNarrowWarning L areaName w ∧
          w'.WarningAreas = (w.WarningAreas.filter (fun wa => wa.AffectedAreas.any
              (fun aa => containsIgnoreCase L aa.Sv areaName))).map (specNarrowArea L areaName) ∧
          ∀ wa, (specNarrowArea L areaName wa).AffectedAreas
              = wa.AffectedAreas.filter (fun aa => containsIgnoreCase L aa.Sv areaName)) ∧
    filterAndPaginateWarnings asciiStrings [stockholmUppsala] "" "stock" 1 10
      = some [stockholmOnly] := by
  refine ⟨?_, rfl⟩
  intro L warnings eventType areaName page pageSize result hname hres w' hw'
  have hsub := paginate_sublist _ _ _ _ hres
  have hmem := hsub.subset hw'
  rw [filteredWarnings_eq, List.mem_filterMap] at hmem
  obtain ⟨w, hw, hsel⟩ := hmem
  refine ⟨w, hw, ?_⟩
  unfold specSelect at hsel
  split_ifs at hsel
  injection hsel with hsel
  rw [← hsel]
  exact ⟨rfl, rfl, fun _ => rfl⟩

theorem area_filter_narrows_sub_structure_witness :
    "stock" ≠ "" ∧
    filterAndPaginateWarnings asciiStrings [stockholmUppsala] "" "stock" 1 10
      = some [stockholmOnly] ∧
    ∃ w ∈ [stockholmUppsala], stockholmOnly = specNarrowWarning asciiStrings "stock" w :=
  ⟨by decide, rfl,
    area_filter_narrows_sub_structure.1 asciiStrings [stockholmUppsala] "" "stock" 1 10
      [stockholmOnly] (by decide) rfl stockholmOnly (List.mem_singleton.mpr rfl)
      |>.imp fun _ h => ⟨h.1, h.2.1⟩⟩

/-- C2: with a non-empty `areaName`, no event filter and one page holding
everything, `filterAndPaginateWarnings` returns the input warnings that have an
affected area whose name contains `areaName` ignoring case, each narrowed; an
input warning appears (narrowed) in the result if and only if at least one
affected area of at least one of its warning areas matches. -/
theorem area_filter_keeps_exactly_matching_warnings (L : GoStrings) (warnings : List Warning)
    (areaName : String) (pageSize : Int) (hname : areaName ≠ "")
    (hsize : (warnings.length : Int) ≤ pageSize) (hrange : pageSize < 9223372036854775808) :
    ∃ result, filterAndPaginateWarnings L warnings "" areaName 1 pageSize = some result ∧
      result = (warnings.filter (specWarningMatches L areaName)).map
        (specNarrowWarning L areaName) ∧
      ∀ w ∈ warnings, (specNarrowWarning L areaName w ∈ result ↔
        ∃ wa ∈ w.WarningAreas, ∃ aa ∈ wa.AffectedAreas,
          containsIgnoreCase L aa.Sv areaName = true) := by
  have hlen := filteredWarnings_length_le L warnings "" areaName
  have hpag := paginate_first_page (filteredWarnings L warnings "" areaName) pageSize
    (by omega) hrange
  have hfil := filterMap_specSelect_area L areaName hname warnings
  refine ⟨_, ?_, rfl, ?_⟩
  · unfold filterAndPaginateWarnings
    rw [hpag, filteredWarnings_eq, hfil]
  · intro w hw
    have hspec : specWarningMatches L areaName w = true ↔
        ∃ wa ∈ w.WarningAreas, ∃ aa ∈ wa.AffectedAreas,
          containsIgnoreCase L aa.Sv areaName = true := by
      simp [specWarningMatches, specAreaMatches, specAffectedMatches]
    rw [← hspec]
    constructor
    · intro hmem
      obtain ⟨w0, hw0, heq⟩ := List.mem_map.mp hmem
      have hm0 : specWarningMatches L areaName w0 = true := (List.mem_filter.mp hw0).2
      have hareas : (specNarrowWarning L areaName w0).WarningAreas
          = (specNarrowWarning L areaName w).WarningAreas := by rw [heq]
      simp only [specNarrowWarning] at hareas
      unfold specWarningMatches at hm0 ⊢
      rw [List.any_eq_true] at hm0 ⊢
      obtain ⟨wa0, hwa0, hmatch0⟩ := hm0
      have hne : (List.map (specNarrowArea L areaName)
          (List.filter (specAreaMatches L areaName) w0.WarningAreas)) ≠ [] := by
        intro hnil
        have := List.map_eq_nil_iff.mp hnil
        have hin : wa0 ∈ List.filter (specAreaMatches L areaName) w0.WarningAreas :=
          List.mem_filter.mpr ⟨hwa0, hmatch0⟩
        rw [this] at hin
        exact List.not_mem_nil _ hin
      rw [hareas] at hne
      have hne2 : List.filter (specAreaMatches L areaName) w.WarningAreas ≠ [] := by
        intro hnil
        exact hne (by rw [hnil]; rfl)
      obtain ⟨wa, hwa⟩ := List.exists_mem_of_ne_nil _ hne2
      exact ⟨wa, (List.mem_filter.mp hwa).1, (List.mem_filter.mp hwa).2⟩
    · intro hm
      exact List.mem_map.mpr ⟨w, List.mem_filter.mpr ⟨hw, hm⟩, rfl⟩

theorem area_filter_keeps_exactly_matching_warnings_witness :
    ∃ result, filterAndPaginateWarnings asciiStrings [stockholmUppsala] "" "uppsala" 1 1
        = some result ∧
      result = ([stockholmUppsala].filter (specWarningMatches asciiStrings "uppsala")).map
        (specNarrowWarning asciiStrings "uppsala") ∧
      ∀ w ∈ [stockholmUppsala], (specNarrowWarning asciiStrings "uppsala" w ∈ result ↔
        ∃ wa ∈ w.WarningAreas, ∃ aa ∈ wa.AffectedAreas,
          containsIgnoreCase asciiStrings aa.Sv "uppsala" = true) :=
  area_filter_keeps_exactly_matching_warnings asciiStrings [stockholmUppsala] "uppsala" 1
    (by decide) (by decide) (by decide)

/-- C3: with `areaName` empty and one page holding everything, a non-empty
`eventType` makes `filterAndPaginateWarnings` return exactly the input warnings
whose `Event.Code` equals `eventType`, unchanged and in order, and the empty
`eventType` makes it return all input warnings unchanged. -/
theorem event_filter_is_exact_match (L : GoStrings) (warnings : List Warning)
    (eventType : String) (pageSize : Int)
    (hsize : (warnings.length : Int) ≤ pageSize) (hrange : pageSize < 9223372036854775808) :
    (eventType ≠ "" →
      filterAndPaginateWarnings L warnings eventType "" 1 pageSize
        = some (warnings.filter (fun w => w.Event.Code = eventType))) ∧
    filterAndPaginateWarnings L warnings "" "" 1 pageSize = some warnings := by
  constructor
  · intro hne
    have hlen := filteredWarnings_length_le L warnings eventType ""
    have hpag := paginate_first_page (filteredWarnings L warnings eventType "") pageSize
      (by omega) hrange
    unfold filterAndPaginateWarnings
    rw [hpag, filteredWarnings_eq, filterMap_specSelect_event]
    simp [hne]
  · have hlen := filteredWarnings_length_le L warnings "" ""
    have hpag := paginate_first_page (filteredWarnings L warnings "" "") pageSize
      (by omega) hrange
    unfold filterAndPaginateWarnings
    rw [hpag, filteredWarnings_eq, filterMap_specSelect_event]
    simp

theorem event_filter_is_exact_match_witness :
    ("RED" ≠ "" →
      filterAndPaginateWarnings asciiStrings [stockholmUppsala] "RED" "" 1 10
        = some ([stockholmUppsala].filter (fun w => w.Event.Code = "RED"))) ∧
    filterAndPaginateWarnings asciiStrings [stockholmUppsala] "" "" 1 10
      = some [stockholmUppsala] :=
  event_filter_is_exact_match asciiStrings [stockholmUppsala] "RED" 10 (by decide) (by decide)

/-- C4: for `page >= 1` and `pageSize >= 1` whose product `(page-1)*pageSize`
fits a Go `int`, `filterAndPaginateWarnings` returns the filtered list without
its first `(page-1)*pageSize` elements, cut to at most `pageSize` elements
(`pageSize` being a Go `int` and the slice having fewer than `2^62` elements,
as every slice of warnings has); with 25 filtered warnings, page 3 of size 10
holds 5 warnings and page 10 of size 10 is empty. -/
theorem pagination_drops_then_takes :
    (∀ (L : GoStrings) (warnings : List Warning) (eventType areaName : String)
        (page pageSize : Int),
        1 ≤ page → 1 ≤ pageSize → pageSize < 9223372036854775808 →
        (page - 1) * pageSize < 9223372036854775808 →
        warnings.length < 4611686018427387904 →
        filterAndPaginateWarnings L warnings eventType areaName page pageSize
          = some (((filteredWarnings L warnings eventType areaName).drop
              ((page - 1) * pageSize).toNat).take pageSize.toNat)) ∧
    (∀ (L : GoStrings) (warnings : List Warning) (eventType areaName : String),
        (filteredWarnings L warnings eventType areaName).length = 25 →
        (∃ result, filterAndPaginateWarnings L warnings eventType areaName 3 10 = some result ∧
          result.length = 5) ∧
        filterAndPaginateWarnings L warnings eventType areaName 10 10 = some []) := by
  constructor
  · intro L warnings eventType areaName page pageSize hpage hsize hrange hmul hlen
    have hle := filteredWarnings_length_le L warnings eventType areaName
    exact paginate_drop_take _ page pageSize hpage hsize hrange hmul (by omega)
  · intro L warnings eventType areaName h25
    have h3 := paginate_drop_take (filteredWarnings L warnings eventType areaName) 3 10
      (by decide) (by decide) (by decide) (by decide) (by omega)
    have h10 := paginate_drop_take (filteredWarnings L warnings eventType areaName) 10 10
      (by decide) (by decide) (by decide) (by decide) (by omega)
    unfold filterAndPaginateWarnings
    rw [h3, h10]
    refine ⟨⟨_, rfl, ?_⟩, ?_⟩
    · simp [List.length_take, List.length_drop, h25]
    · have : (filteredWarnings L warnings eventType areaName).length ≤ ((10 - 1) * 10 : Int).toNat := by
        rw [h25]; decide
      rw [List.drop_eq_nil_of_le this]
      simp

theorem pagination_drops_then_takes_witness :
    filterAndPaginateWarnings asciiStrings [stockholmUppsala, stockholmOnly] "" "" 2 1
      = some (((filteredWarnings asciiStrings [stockholmUppsala, stockholmOnly] "" "").drop
          (((2 : Int) - 1) * 1).toNat).take (1 : Int).toNat) ∧
    filterAndPaginateWarnings asciiStrings [stockholmUppsala, stockholmOnly] "" "" 2 1
      = some [stockholmOnly] :=
  ⟨pagination_drops_then_takes.1 asciiStrings [stockholmUppsala, stockholmOnly] "" "" 2 1
    (by decide) (by decide) (by decide) (by decide) (by decide), rfl⟩

/-- C5: the request `page = 2^62 + 1`, `pageSize = 2` makes `(page-1)*pageSize`
wrap to `-2^63`; the guard `start >= len(filteredWarnings)` does not catch the
negative start, and the slice expression panics, whatever the warnings and the
filters are. -/
theorem pagination_panics_when_start_wraps (L : GoStrings) (warnings : List Warning)
    (eventType areaName : String) :
    filterAndPaginateWarnings L warnings eventType areaName 4611686018427387905 2 = none := by
  have h1 : wrapInt (wrapInt (4611686018427387905 - 1) * 2) = -9223372036854775808 := by
    decide
  have h2 : wrapInt (-9223372036854775808 + 2) = -9223372036854775806 := by
    decide
  have hlen : (0 : Int) ≤ ((filteredWarnings L warnings eventType areaName).length : Int) :=
    Int.ofNat_nonneg _
  simp only [filterAndPaginateWarnings, paginate, h1, h2]
  rw [if_neg (by omega), if_neg (by omega)]
  unfold sliceExpr
  rw [if_neg (by omega)]

/-- C6: `weatherWarningHandler` replaces every `page < 1` by `1` and every
`pageSize < 1` by `10` before filtering, so a query with page `0` (the value of
a missing or non-numeric parameter) answers as the query with page `1`, and a
query with `pageSize <= 0` answers as the query with `pageSize = 10`. -/
theorem handler_normalises_page_and_page_size (L : GoStrings) (cached : List Warning)
    (eventType areaName : String) (page pageSize : Int) :
    (page < 1 →
      weatherWarningHandler L cached eventType areaName page pageSize
        = weatherWarningHandler L cached eventType areaName 1 pageSize) ∧
    (pageSize ≤ 0 →
      weatherWarningHandler L cached eventType areaName page pageSize
        = weatherWarningHandler L cached eventType areaName page 10) ∧
    weatherWarningHandler L cached eventType areaName 0 pageSize
      = weatherWarningHandler L cached eventType areaName 1 pageSize ∧
    (1 ≤ page → 1 ≤ pageSize →
      weatherWarningHandler L cached eventType areaName page pageSize
        = filterAndPaginateWarnings L cached eventType areaName page pageSize) := by
  refine ⟨?_, ?_, ?_, ?_⟩
  · intro h
    simp [weatherWarningHandler, h]
  · intro h
    have h1 : pageSize < 1 := by omega
    simp [weatherWarningHandler, h1]
  · simp [weatherWarningHandler]
  · intro h1 h2
    have h1' : ¬ page < 1 := by omega
    have h2' : ¬ pageSize < 1 := by omega
    simp [weatherWarningHandler, h1', h2']

theorem handler_normalises_page_and_page_size_witness :
    weatherWarningHandler asciiStrings [stockholmUppsala] "" "" (-3) 0
        = weatherWarningHandler asciiStrings [stockholmUppsala] "" "" 1 0 ∧
    weatherWarningHandler asciiStrings [stockholmUppsala] "" "" (-3) 0
        = weatherWarningHandler asciiStrings [stockholmUppsala] "" "" (-3) 10 ∧
    weatherWarningHandler asciiStrings [stockholmUppsala] "" "" (-3) 0
        = some [stockholmUppsala] :=
  ⟨(handler_normalises_page_and_page_size asciiStrings [stockholmUppsala] "" "" (-3) 0).1
      (by decide),
    (handler_normalises_page_and_page_size asciiStrings [stockholmUppsala] "" "" (-3) 0).2.1
      (by decide),
    rfl⟩

/-- C7: for `page >= 1` and `pageSize >= 1`, whatever `filterAndPaginateWarnings`
returns has, as its sequence of warning IDs, a subsequence of the sequence of
IDs of the input (snapshot order, nothing moved, nothing repeated); and it does
return whenever `(page-1)*pageSize` fits a Go `int`. -/
theorem result_ids_are_a_subsequence (L : GoStrings) (warnings : List Warning)
    (eventType areaName : String) (page pageSize : Int)
    (hpage : 1 ≤ page) (hsize : 1 ≤ pageSize) :
    (∀ result, filterAndPaginateWarnings L warnings eventType areaName page pageSize
        = some result →
      (result.map Warning.ID).Sublist (warnings.map Warning.ID)) ∧
    (pageSize < 9223372036854775808 → (page - 1) * pageSize < 9223372036854775808 →
      warnings.length < 4611686018427387904 →
      ∃ result, filterAndPaginateWarnings L warnings eventType areaName page pageSize
          = some result ∧
        (result.map Warning.ID).Sublist (warnings.map Warning.ID)) := by
  have key : ∀ result, filterAndPaginateWarnings L warnings eventType areaName page pageSize
      = some result → (result.map Warning.ID).Sublist (warnings.map Warning.ID) := by
    intro result hres
    have hsub := paginate_sublist _ _ _ _ hres
    rw [filteredWarnings_eq] at hsub
    exact (hsub.map Warning.ID).trans (filterMap_ID_sublist L eventType areaName warnings)
  refine ⟨key, ?_⟩
  intro hrange hmul hlen
  have hle := filteredWarnings_length_le L warnings eventType areaName
  have heq := paginate_drop_take (filteredWarnings L warnings eventType areaName) page pageSize
    hpage hsize hrange hmul (by omega)
  exact ⟨_, heq, key _ heq⟩

theorem result_ids_are_a_subsequence_witness :
    (1 : Int) ≤ 2 ∧ (1 : Int) ≤ 1 ∧
    ∃ result, filterAndPaginateWarnings asciiStrings [stockholmUppsala, stockholmOnly]
          "" "stock" 2 1 = some result ∧
        (result.map Warning.ID).Sublist ([stockholmUppsala, stockholmOnly].map Warning.ID) :=
  ⟨by decide, by decide,
    (result_ids_are_a_subsequence asciiStrings [stockholmUppsala, stockholmOnly] "" "stock" 2 1
      (by decide) (by decide)).2 (by decide) (by decide) (by decide)⟩

/-! ## Containment, fetch and notification -/

/-- C8: for the square `[0,10] x [0,10]` and its centre `(5, 5)`, a point
strictly inside, `isSensorInArea` answers `false`: the function is a placeholder
that answers `false` for every point and every area. -/
theorem isSensorInArea_rejects_interior_point :
    isSensorInArea (Float64.finite 5) (Float64.finite 5) squareArea = false ∧
    ∀ (lat long : Float64) (area : GeoJSONFeature), isSensorInArea lat long area = false :=
  ⟨rfl, fun _ _ _ => rfl⟩

/-- C9: a tick of `periodicWeatherUpdate` whose fetch fails, by a transport
error or by a decode error, leaves `cachedWarnings` as it was and starts no
notification pass, so a read after the tick returns what a read before it did. -/
theorem failed_fetch_leaves_cache_untouched (httpGet : Except String String)
    (decode : String → Except String (List Warning)) (st : ServerState)
    (hfail : (∃ err, httpGet = .error err) ∨
      (∃ body err, httpGet = .ok body ∧ decode body = .error err)) :
    (∃ err, (fetchWeatherWarnings httpGet decode).1 = .error err) ∧
    (periodicWeatherUpdateTick httpGet decode st).cachedWarnings = st.cachedWarnings ∧
    (periodicWeatherUpdateTick httpGet decode st).notifyPasses = st.notifyPasses ∧
    readCache (periodicWeatherUpdateTick httpGet decode st) = readCache st := by
  rcases hfail with ⟨err, h⟩ | ⟨body, err, h, hd⟩
  · subst h
    exact ⟨⟨_, rfl⟩, rfl, rfl, rfl⟩
  · subst h
    simp [fetchWeatherWarnings, periodicWeatherUpdateTick, readCache, hd]

theorem failed_fetch_leaves_cache_untouched_witness :
    readCache (periodicWeatherUpdateTick (.ok "not json") (fun _ => .error "invalid character")
        { cachedWarnings := [stockholmUppsala], notifyPasses := [], logLines := [] })
      = [stockholmUppsala] :=
  (failed_fetch_leaves_cache_untouched (.ok "not json") (fun _ => .error "invalid character")
    { cachedWarnings := [stockholmUppsala], notifyPasses := [], logLines := [] }
    (Or.inr ⟨"not json", "invalid character", rfl, rfl⟩)).2.2.2

theorem notifyWarning_below_threshold {σ : Type} (L : GoStrings) (db : Database σ)
    (inArea : Float64 → Float64 → GeoJSONFeature → Bool) (w : Warning) (st : σ × List Effect)
    (h : specQualifies L w = false) : notifyWarning L db inArea w st = st := by
  have h' : L.ToUpper w.Event.Code ≠ "ORANGE" ∧ L.ToUpper w.Event.Code ≠ "RED" := by
    simpa [specQualifies] using h
  simp [notifyWarning, h']

theorem notifyWarningsLoop_filter {σ : Type} (L : GoStrings) (db : Database σ)
    (inArea : Float64 → Float64 → GeoJSONFeature → Bool) (warnings : List Warning) :
    ∀ st : σ × List Effect,
      notifyWarningsLoop L db inArea warnings st
        = notifyWarningsLoop L db inArea (warnings.filter (specQualifies L)) st := by
  induction warnings with
  | nil => intro st; rfl
  | cons w rest ih =>
    intro st
    cases h : specQualifies L w with
    | false =>
      rw [List.filter_cons_of_neg (by simp [h])]
      simp only [notifyWarningsLoop]
      rw [notifyWarning_below_threshold L db inArea w st h]
      exact ih st
    | true =>
      rw [List.filter_cons_of_pos h]
      simp only [notifyWarningsLoop]
      exact ih _

/-- C10: in `processWarningsAndNotify`, a warning whose upper-cased `Event.Code`
is neither `ORANGE` nor `RED` causes no sensor-status update, no webhook
delivery and no other effect: the pass over a snapshot does exactly what the
pass over its qualifying warnings does, and a snapshot holding only warnings
below the threshold leaves the database as it was with no effect at all.  This
holds for `isSensorInArea` and for any containment check in its place. -/
theorem below_threshold_warnings_cause_no_effects {σ : Type} (L : GoStrings) (db : Database σ)
    (inArea : Float64 → Float64 → GeoJSONFeature → Bool) (warnings : List Warning) (s : σ) :
    (∀ (w : Warning) (st : σ × List Effect),
      L.ToUpper w.Event.Code ≠ "ORANGE" → L.ToUpper w.Event.Code ≠ "RED" →
      notifyWarning L db inArea w st = st) ∧
    notifyWarningsLoop L db inArea warnings (s, [])
      = notifyWarningsLoop L db inArea (warnings.filter (specQualifies L)) (s, []) ∧
    processWarningsAndNotify L db warnings s
      = processWarningsAndNotify L db (warnings.filter (specQualifies L)) s ∧
    ((∀ w ∈ warnings, L.ToUpper w.Event.Code ≠ "ORANGE" ∧ L.ToUpper w.Event.Code ≠ "RED") →
      notifyWarningsLoop L db inArea warnings (s, []) = (s, []) ∧
      processWarningsAndNotify L db warnings s = (s, [])) := by
  refine ⟨?_, notifyWarningsLoop_filter L db inArea warnings _,
    notifyWarningsLoop_filter L db isSensorInArea warnings _, ?_⟩
  · intro w st h1 h2
    exact notifyWarning_below_threshold L db inArea w st (by simp [specQualifies, h1, h2])
  · intro hall
    have hnil : warnings.filter (specQualifies L) = [] := by
      rw [List.filter_eq_nil_iff]
      intro w hw
      have := hall w hw
      simp [specQualifies, this.1, this.2]
    constructor
    · rw [notifyWarningsLoop_filter, hnil]; rfl
    · unfold processWarningsAndNotify
      rw [notifyWarningsLoop_filter, hnil]; rfl

theorem below_threshold_warnings_cause_no_effects_witness :
    notifyWarningsLoop asciiStrings exampleDatabase (fun _ _ _ => true) [stockholmUppsala]
        (0, [])
      = (0, []) ∧
    processWarningsAndNotify asciiStrings exampleDatabase [stockholmUppsala] 0 = (0, []) :=
  (below_threshold_warnings_cause_no_effects asciiStrings exampleDatabase (fun _ _ _ => true)
    [stockholmUppsala] 0).2.2.2
    (fun w hw => by
      rw [List.mem_singleton.mp hw]
      exact ⟨by decide, by decide⟩)

/-! ## Algebraic properties of the filter -/

theorem specNarrowArea_matches (L : GoStrings) (areaName : String) (wa : WarningArea)
    (h : specAreaMatches L areaName wa = true) :
    specAreaMatches L areaName (specNarrowArea L areaName wa) = true := by
  unfold specAreaMatches at h ⊢
  rw [List.any_eq_true] at h ⊢
  obtain ⟨aa, haa, hm⟩ := h
  exact ⟨aa, by simp [specNarrowArea, haa, hm], hm⟩

theorem specNarrowArea_idem (L : GoStrings) (areaName : String) (wa : WarningArea) :
    specNarrowArea L areaName (specNarrowArea L areaName wa) = specNarrowArea L areaName wa := by
  simp [specNarrowArea]

theorem specNarrowWarning_areas_fixed (L : GoStrings) (areaName : String)
    (l : List WarningArea) :
    ((l.filter (specAreaMatches L areaName)).map (specNarrowArea L areaName)).filter
        (specAreaMatches L areaName)
      = (l.filter (specAreaMatches L areaName)).map (specNarrowArea L areaName) := by
  rw [List.filter_eq_self]
  intro wa hwa
  obtain ⟨wa0, hwa0, rfl⟩ := List.mem_map.mp hwa
  exact specNarrowArea_matches L areaName wa0 (List.mem_filter.mp hwa0).2

theorem specNarrowWarning_idem (L : GoStrings) (areaName : String) (w : Warning) :
    specNarrowWarning L areaName (specNarrowWarning L areaName w)
      = specNarrowWarning L areaName w := by
  simp only [specNarrowWarning]
  rw [specNarrowWarning_areas_fixed, List.map_map]
  congr 1
  apply List.map_congr_left
  intro wa _
  exact specNarrowArea_idem L areaName wa

theorem specNarrowWarning_matches (L : GoStrings) (areaName : String) (w : Warning)
    (h : specWarningMatches L areaName w = true) :
    specWarningMatches L areaName (specNarrowWarning L areaName w) = true := by
  unfold specWarningMatches at h ⊢
  rw [List.any_eq_true] at h ⊢
  obtain ⟨wa, hwa, hm⟩ := h
  refine ⟨specNarrowArea L areaName wa, ?_, specNarrowArea_matches L areaName wa hm⟩
  simp only [specNarrowWarning]
  exact List.mem_map.mpr ⟨wa, List.mem_filter.mpr ⟨hwa, hm⟩, rfl⟩

theorem specSelect_fixed (L : GoStrings) (eventType areaName : String) (w w' : Warning)
    (h : specSelect L eventType areaName w = some w') :
    specSelect L eventType areaName w' = some w' := by
  unfold specSelect at h
  split_ifs at h with h1 h2 h3
  · injection h with h
    subst h
    have h1' : ¬ (eventType ≠ "" ∧ (specNarrowWarning L areaName w).Event.Code ≠ eventType) := h1
    simp [specSelect, h1', h2, specNarrowWarning_matches L areaName w h3,
      specNarrowWarning_idem]
  · injection h with h
    subst h
    simp only [specSelect, h1, h2, if_false]

theorem filterMap_specSelect_idem (L : GoStrings) (eventType areaName : String)
    (l : List Warning) :
    (l.filterMap (specSelect L eventType areaName)).filterMap (specSelect L eventType areaName)
      = l.filterMap (specSelect L eventType areaName) := by
  induction l with
  | nil => rfl
  | cons w rest ih =>
    rw [List.filterMap_cons]
    cases hsel : specSelect L eventType areaName w with
    | none => simpa using ih
    | some w' =>
      simp only []
      rw [List.filterMap_cons, specSelect_fixed L eventType areaName w w' hsel]
      simp only []
      rw [ih]

/-- C14: filtering is idempotent.  With `F xs = filterAndPaginateWarnings xs e a 1 n`
and `n >= length ws` (a Go `int`; so in particular for `n >= max 1 (length ws)`),
`F ws` returns a list `r` and `F r` returns `r` again: the narrowed warnings
pass the same filter and are narrowed no further. -/
theorem filtering_is_idempotent (L : GoStrings) (warnings : List Warning)
    (eventType areaName : String) (n : Int)
    (hlen : (warnings.length : Int) ≤ n) (hrange : n < 9223372036854775808) :
    ∃ result, filterAndPaginateWarnings L warnings eventType areaName 1 n = some result ∧
      filterAndPaginateWarnings L result eventType areaName 1 n = some result := by
  have hle := filteredWarnings_length_le L warnings eventType areaName
  have h1 := paginate_first_page (filteredWarnings L warnings eventType areaName) n
    (by omega) hrange
  refine ⟨filteredWarnings L warnings eventType areaName, h1, ?_⟩
  have hle2 := filteredWarnings_length_le L (filteredWarnings L warnings eventType areaName)
    eventType areaName
  have h2 := paginate_first_page
    (filteredWarnings L (filteredWarnings L warnings eventType areaName) eventType areaName) n
    (by omega) hrange
  unfold filterAndPaginateWarnings
  rw [h2]
  congr 1
  rw [filteredWarnings_eq, filteredWarnings_eq, filterMap_specSelect_idem]

theorem filtering_is_idempotent_witness :
    ∃ result, filterAndPaginateWarnings asciiStrings [stockholmUppsala] "" "stock" 1 1
        = some result ∧
      filterAndPaginateWarnings asciiStrings result "" "stock" 1 1 = some result :=
  filtering_is_idempotent asciiStrings [stockholmUppsala] "" "stock" 1
    (by decide) (by decide)

theorem specAreaMatches_eraseEn (L : GoStrings) (areaName : String) (wa : WarningArea) :
    specAreaMatches L areaName (eraseEnArea wa) = specAreaMatches L areaName wa := by
  simp only [specAreaMatches, eraseEnArea, List.any_map]
  rfl

theorem specNarrowArea_eraseEn (L : GoStrings) (areaName : String) (wa : WarningArea) :
    specNarrowArea L areaName (eraseEnArea wa) = eraseEnArea (specNarrowArea L areaName wa) := by
  simp only [specNarrowArea, eraseEnArea, List.filter_map]
  rfl

theorem specWarningMatches_eraseEn (L : GoStrings) (areaName : String) (w : Warning) :
    specWarningMatches L areaName (eraseEn w) = specWarningMatches L areaName w := by
  simp only [specWarningMatches, eraseEn, List.any_map]
  congr 1
  funext wa
  exact specAreaMatches_eraseEn L areaName wa

theorem specNarrowWarning_eraseEn (L : GoStrings) (areaName : String) (w : Warning) :
    specNarrowWarning L areaName (eraseEn w) = eraseEn (specNarrowWarning L areaName w) := by
  have hfun : (specAreaMatches L areaName ∘ eraseEnArea) = specAreaMatches L areaName := by
    funext wa
    exact specAreaMatches_eraseEn L areaName wa
  simp only [specNarrowWarning, eraseEn, List.filter_map, List.map_map, hfun]
  congr 1
  apply List.map_congr_left
  intro wa _
  exact specNarrowArea_eraseEn L areaName wa

theorem specSelect_eraseEn (L : GoStrings) (eventType areaName : String) (w : Warning) :
    specSelect L eventType areaName (eraseEn w)
      = (specSelect L eventType areaName w).map eraseEn := by
  have hev : (eraseEn w).Event = w.Event := rfl
  unfold specSelect
  rw [hev, specWarningMatches_eraseEn, specNarrowWarning_eraseEn]
  split_ifs <;> rfl

theorem filterMap_specSelect_eraseEn (L : GoStrings) (eventType areaName : String)
    (l : List Warning) :
    (l.map eraseEn).filterMap (specSelect L eventType areaName)
      = (l.filterMap (specSelect L eventType areaName)).map eraseEn := by
  induction l with
  | nil => rfl
  | cons w rest ih =>
    rw [List.map_cons, List.filterMap_cons, List.filterMap_cons, specSelect_eraseEn]
    cases specSelect L eventType areaName w with
    | none => simpa using ih
    | some w' => simpa using ih

theorem paginate_map (f : Warning → Warning) (filtered : List Warning) (page pageSize : Int) :
    paginate (filtered.map f) page pageSize
      = (paginate filtered page pageSize).map (List.map f) := by
  simp only [paginate, sliceExpr, List.length_map]
  split_ifs <;> simp [List.map_take, List.map_drop]

/-- The filter commutes with blanking the English names. -/
theorem filterAndPaginateWarnings_eraseEn (L : GoStrings) (warnings : List Warning)
    (eventType areaName : String) (page pageSize : Int) :
    filterAndPaginateWarnings L (warnings.map eraseEn) eventType areaName page pageSize
      = (filterAndPaginateWarnings L warnings eventType areaName page pageSize).map
          (List.map eraseEn) := by
  unfold filterAndPaginateWarnings
  rw [filteredWarnings_eq, filteredWarnings_eq, filterMap_specSelect_eraseEn, paginate_map]

/-- C15: the area-name filter reads only the `Sv` name.  Two lists of warnings
that agree once the `En` fields of their affected areas are blanked give, for
every event type, area name, page and page size, results that agree once
blanked (same warnings, warning areas and affected areas kept, at the same
positions; the same panic if any); and when no `Sv` name contains `areaName`,
nothing is returned whatever the `En` names are, as for the area called
Uppsala in Swedish and Stockholm in English queried with `stock`. -/
theorem area_filter_reads_only_swedish_names :
    (∀ (L : GoStrings) (ws1 ws2 : List Warning) (eventType areaName : String)
        (page pageSize : Int),
        ws1.map eraseEn = ws2.map eraseEn →
        (filterAndPaginateWarnings L ws1 eventType areaName page pageSize).map
            (List.map eraseEn)
          = (filterAndPaginateWarnings L ws2 eventType areaName page pageSize).map
            (List.map eraseEn)) ∧
    (∀ (L : GoStrings) (warnings : List Warning) (eventType areaName : String)
        (page pageSize : Int),
        areaName ≠ "" →
        (∀ w ∈ warnings, ∀ wa ∈ w.WarningAreas, ∀ aa ∈ wa.AffectedAreas,
          containsIgnoreCase L aa.Sv areaName = false) →
        filterAndPaginateWarnings L warnings eventType areaName 1 pageSize = some [] ∧
        ∀ result, filterAndPaginateWarnings L warnings eventType areaName page pageSize
          = some result → result = []) ∧
    containsIgnoreCase asciiStrings "Stockholm" "stock" = true ∧
    filterAndPaginateWarnings asciiStrings [englishStockholm] "" "stock" 1 10 = some [] := by
  refine ⟨?_, ?_, rfl, rfl⟩
  · intro L ws1 ws2 eventType areaName page pageSize h
    rw [← filterAndPaginateWarnings_eraseEn, ← filterAndPaginateWarnings_eraseEn, h]
  · intro L warnings eventType areaName page pageSize hname hno
    have hnil : filteredWarnings L warnings eventType areaName = [] := by
      rw [filteredWarnings_eq, List.filterMap_eq_nil_iff]
      intro w hw
      have hm : specWarningMatches L areaName w = false := by
        unfold specWarningMatches
        rw [List.any_eq_false]
        intro wa hwa
        unfold specAreaMatches
        rw [Bool.not_eq_true, List.any_eq_false]
        intro aa haa
        rw [Bool.not_eq_true]
        exact hno w hw wa hwa aa haa
      unfold specSelect
      split_ifs <;> first | rfl | simp_all
    constructor
    · unfold filterAndPaginateWarnings
      rw [hnil]
      have hw0 : wrapInt 0 = 0 := wrapInt_of_range 0 (by omega) (by omega)
      simp [paginate, hw0]
    · intro result hres
      have hsub := paginate_sublist _ _ _ _ hres
      rw [hnil] at hsub
      exact List.eq_nil_of_sublist_nil hsub

theorem area_filter_reads_only_swedish_names_witness :
    [englishStockholm].map eraseEn = [exampleWarning 3 "YELLOW"
        [exampleArea 1 [{ ID := 1, Sv := "Uppsala", En := "Uppsala" }]]].map eraseEn ∧
    (filterAndPaginateWarnings asciiStrings [englishStockholm] "" "upp" 1 10).map
        (List.map eraseEn)
      = (filterAndPaginateWarnings asciiStrings [exampleWarning 3 "YELLOW"
          [exampleArea 1 [{ ID := 1, Sv := "Uppsala", En := "Uppsala" }]]] "" "upp" 1 10).map
        (List.map eraseEn) :=
  ⟨rfl, area_filter_reads_only_swedish_names.1 asciiStrings [englishStockholm]
    [exampleWarning 3 "YELLOW" [exampleArea 1 [{ ID := 1, Sv := "Uppsala", En := "Uppsala" }]]]
    "" "upp" 1 10 rfl⟩

/-! ## Webhook delivery -/

/-- C12, as stated, fails: a response with status `101` (Switching Protocols)
is not a 2xx response, yet `sendWebhookNotification` logs nothing and so does
not treat the delivery as failed. -/
theorem informational_status_is_not_logged :
    ¬ (deliveryLoggedAsFailed "https://acme.example/hook" 101
          (sendWebhookNotification 0 exampleMarshal (answering 101)
            "https://acme.example/hook" exampleSensor stockholmUppsala) = true ↔
        ¬ ((200 : Int) ≤ 101 ∧ (101 : Int) ≤ 299)) ∧
    (sendWebhookNotification 0 exampleMarshal (answering 101)
        "https://acme.example/hook" exampleSensor stockholmUppsala).any isLogged = false := by
  constructor
  · intro h
    have hlog := h.mpr (by decide)
    revert hlog
    decide
  · decide

/-- C12, amended: for a response with status code `statusCode`, the delivery is
treated as failed, that is logged with the subscriber URL and the status, if and
only if `statusCode >= 300`; and no second attempt is made in either case:
`http.Post` is never called a second time, whatever it and the marshaller answer. -/
theorem delivery_failure_is_status_at_least_300 (now : Int)
    (marshal : WebhookPayload → Except String String)
    (post : String → String → String → Except String Int)
    (url : String) (sensor : Sensor) (warning : Warning) :
    (∀ (data : String) (statusCode : Int),
      marshal { sensor_id := sensor.ID, sensor_name := sensor.Name, status := sensor.Status,
                warning := warning.Event.En, timestamp := now } = .ok data →
      post url "application/json" data = .ok statusCode →
      (deliveryLoggedAsFailed url statusCode
          (sendWebhookNotification now marshal post url sensor warning) = true
        ↔ 300 ≤ statusCode) ∧
      ((sendWebhookNotification now marshal post url sensor warning).any isLogged = true
        ↔ 300 ≤ statusCode) ∧
      postCalls (sendWebhookNotification now marshal post url sensor warning) ≤ 1) ∧
    postCalls (sendWebhookNotification now marshal post url sensor warning) ≤ 1 := by
  constructor
  · intro data statusCode hm hp
    by_cases hc : statusCode ≥ 300
    · simp [sendWebhookNotification, hm, hp, hc, deliveryLoggedAsFailed, isStatusLine,
        isLogged, postCalls, isPostCall, List.countP_cons]
    · simp [sendWebhookNotification, hm, hp, hc, deliveryLoggedAsFailed, isStatusLine,
        isLogged, postCalls, isPostCall, List.countP_cons]
  · unfold sendWebhookNotification
    simp only []
    split
    · simp [postCalls, isPostCall, List.countP_cons]
    · split
      · simp [postCalls, isPostCall, List.countP_cons]
      · split_ifs <;> simp [postCalls, isPostCall, List.countP_cons]

theorem delivery_failure_is_status_at_least_300_witness :
    (deliveryLoggedAsFailed "https://acme.example/hook" 503
        (sendWebhookNotification 0 exampleMarshal (answering 503)
          "https://acme.example/hook" exampleSensor stockholmUppsala) = true
      ↔ (300 : Int) ≤ 503) ∧
    postCalls (sendWebhookNotification 0 exampleMarshal (answering 503)
      "https://acme.example/hook" exampleSensor stockholmUppsala) ≤ 1 :=
  have h := (delivery_failure_is_status_at_least_300 0 exampleMarshal (answering 503)
    "https://acme.example/hook" exampleSensor stockholmUppsala).1 "roof" 503 rfl rfl
  ⟨h.1, h.2.2⟩

/-! ## The notification pass with `isSensorInArea` as it stands -/

/-- With `isSensorInArea`, the loop over the sensors of a company does nothing. -/
theorem sensorsLoop_isSensorInArea {σ : Type} (db : Database σ) (level : String)
    (warning : Warning) (warningArea : WarningArea) (company : Company)
    (sensors : List Sensor) :
    ∀ st : σ × List Effect,
      sensorsLoop db isSensorInArea level warning warningArea company sensors st = st := by
  induction sensors with
  | nil => intro st; obtain ⟨s, tr⟩ := st; rfl
  | cons x rest ih =>
    intro st
    obtain ⟨s, tr⟩ := st
    simp only [sensorsLoop, isSensorInArea, Bool.false_eq_true, if_false]
    exact ih (s, tr)

theorem companiesLoop_isSensorInArea {σ : Type} (db : Database σ) (level : String)
    (warning : Warning) (warningArea : WarningArea) (companies : List Company) :
    ∀ st : σ × List Effect,
      companiesLoop db isSensorInArea level warning warningArea companies st = st := by
  induction companies with
  | nil => intro st; rfl
  | cons c rest ih =>
    intro st
    simp only [companiesLoop, sensorsLoop_isSensorInArea]
    exact ih st

/-- With `isSensorInArea`, the loop over the warning areas only ever adds log lines. -/
theorem notifyAreasLoop_isSensorInArea {σ : Type} (db : Database σ) (level : String)
    (warning : Warning) (areas : List WarningArea) :
    ∀ st : σ × List Effect,
      (∀ e ∈ st.2, ∃ line, e = Effect.logged line) →
      ∀ e ∈ (notifyAreasLoop db isSensorInArea level warning areas st).2,
        ∃ line, e = Effect.logged line := by
  induction areas with
  | nil => intro st h; obtain ⟨s, tr⟩ := st; exact h
  | cons a rest ih =>
    intro st h
    obtain ⟨s, tr⟩ := st
    rcases hq : db.preloadCompanies s with ⟨res, s1⟩
    cases res with
    | error err =>
      simp only [notifyAreasLoop, hq]
      apply ih
      intro e he
      rcases List.mem_append.mp he with h1 | h1
      · exact h e h1
      · exact ⟨_, List.mem_singleton.mp h1⟩
    | ok companies =>
      simp only [notifyAreasLoop, hq, companiesLoop_isSensorInArea]
      exact ih (s1, tr) h

theorem notifyWarningsLoop_isSensorInArea {σ : Type} (L : GoStrings) (db : Database σ)
    (warnings : List Warning) :
    ∀ st : σ × List Effect,
      (∀ e ∈ st.2, ∃ line, e = Effect.logged line) →
      ∀ e ∈ (notifyWarningsLoop L db isSensorInArea warnings st).2,
        ∃ line, e = Effect.logged line := by
  induction warnings with
  | nil => intro st h; exact h
  | cons w rest ih =>
    intro st h
    simp only [notifyWarningsLoop]
    apply ih
    unfold notifyWarning
    simp only []
    split_ifs
    · exact h
    · exact notifyAreasLoop_isSensorInArea db _ w w.WarningAreas st h

/-- C11: the code makes no delivery where the claim asks for exactly one.
`twoAreaRed` qualifies (its code upper-cases to `RED`) and both of its warning
areas are the square `[0,10] x [0,10]`, which has `exampleSensor`, at `(5, 5)`,
strictly inside; the sensor's company has one subscriber.  The pass leaves the
database untouched and its trace empty, so the number of deliveries for the
(subscriber, sensor, warning) triple is `0`.  More generally, whatever the
warnings and the database, every effect of `processWarningsAndNotify` is a log
line: it never updates a sensor and never delivers. -/
theorem sensor_in_two_areas_gets_no_delivery :
    specQualifies asciiStrings twoAreaRed = true ∧
    twoAreaRed.WarningAreas.map WarningArea.Area = [squareArea, squareArea] ∧
    processWarningsAndNotify asciiStrings exampleDatabase [twoAreaRed] 0 = (0, []) ∧
    deliveryCount "https://acme.example/hook" exampleSensor.ID twoAreaRed.ID
      (processWarningsAndNotify asciiStrings exampleDatabase [twoAreaRed] 0).2 = 0 ∧
    (∀ (σ : Type) (L : GoStrings) (db : Database σ) (warnings : List Warning) (s : σ),
      (processWarningsAndNotify L db warnings s).2.all isLogLine = true) := by
  refine ⟨by decide, rfl, rfl, by decide, ?_⟩
  intro σ L db warnings s
  rw [List.all_eq_true]
  intro e he
  obtain ⟨line, hline⟩ := notifyWarningsLoop_isSensorInArea L db warnings (s, [])
    (fun e he => absurd he (List.not_mem_nil e)) e he
  rw [hline]
  rfl

/-! ## The cache under the mutex -/

theorem readerOK_outside (old new c c' : SliceHeader) (r : ReaderState)
    (h : r.pc.inside = false) (hok : readerOK old new c r) : readerOK old new c' r := by
  obtain ⟨pc, w⟩ := r
  cases pc <;> simp_all [readerOK, PC.inside]

theorem writerStep_inv (old new : SliceHeader) (st : CacheState) (h : CacheInv old new st) :
    CacheInv old new (writerStep new st) := by
  obtain ⟨holder, cached, wpc, readers⟩ := st
  obtain ⟨hw, hr, hc, hok⟩ := h
  simp only at hw hr hc hok
  have hout : holder = some Thread.writer → ∀ i, (readers i).pc.inside = false := by
    intro hh i
    have := hr i
    rw [hh] at this
    cases hin : (readers i).pc.inside
    · rfl
    · exact absurd (this.mp hin) (by simp)
  cases wpc with
  | beforeLock =>
    cases holder with
    | none =>
      refine ⟨by simp [writerStep, PC.inside], ?_, by simpa [writerStep, writerView] using hc,
        by simpa [writerStep] using hok⟩
      intro i
      have := hr i
      simp [writerStep] at this ⊢
      exact this
    | some t => simpa [writerStep] using (CacheInv.mk hw hr hc hok)
  | word0 =>
    have hh : holder = some Thread.writer := hw.mp rfl
    refine ⟨by simpa [writerStep, PC.inside] using hh, by simpa [writerStep] using hr,
      by simp [writerStep, writerView, hc], ?_⟩
    intro i
    exact readerOK_outside old new cached _ _ (hout hh i) (hok i)
  | word1 =>
    have hh : holder = some Thread.writer := hw.mp rfl
    refine ⟨by simpa [writerStep, PC.inside] using hh, by simpa [writerStep] using hr,
      by simp [writerStep, writerView, hc], ?_⟩
    intro i
    exact readerOK_outside old new cached _ _ (hout hh i) (hok i)
  | word2 =>
    have hh : holder = some Thread.writer := hw.mp rfl
    refine ⟨by simpa [writerStep, PC.inside] using hh, by simpa [writerStep] using hr,
      by simp [writerStep, writerView, hc], ?_⟩
    intro i
    exact readerOK_outside old new cached _ _ (hout hh i) (hok i)
  | beforeUnlock =>
    have hh : holder = some Thread.writer := hw.mp rfl
    refine ⟨by simp [writerStep, PC.inside], ?_, by simpa [writerStep, writerView] using hc,
      by simpa [writerStep] using hok⟩
    intro i
    simp [writerStep, hout hh i]
  | finished => simpa [writerStep] using (CacheInv.mk hw hr hc hok)

theorem readerStep_inv (old new : SliceHeader) (i : Nat) (st : CacheState)
    (h : CacheInv old new st) : CacheInv old new (readerStep i st) := by
  obtain ⟨holder, cached, wpc, readers⟩ := st
  obtain ⟨hw, hr, hc, hok⟩ := h
  simp only at hw hr hc hok
  have hi := hr i
  have hoki := hok i
  rcases hri : readers i with ⟨pc, mine⟩
  rw [hri] at hi hoki
  simp only at hi hoki
  -- while request `i` holds the mutex, the shared variable is one of the snapshots
  have hsnap : holder = some (Thread.reader i) → cached = old ∨ cached = new := by
    intro hh
    have hwout : wpc.inside = false := by
      cases hin : wpc.inside
      · rfl
      · have := hw.mp hin
        rw [hh] at this
        exact absurd this (by simp)
    rw [hc]
    cases wpc <;> simp_all [PC.inside, writerView]
  have hothers : ∀ j, j ≠ i → holder = some (Thread.reader i) ∨ holder = none →
      (readers j).pc.inside = false := by
    intro j hj hh
    cases hin : (readers j).pc.inside
    · rfl
    · have := (hr j).mp hin
      rcases hh with hh | hh
      · rw [hh] at this
        simp only [Option.some.injEq, Thread.reader.injEq] at this
        exact absurd this.symm hj
      · rw [hh] at this
        exact absurd this (by simp)
  cases pc with
  | beforeLock =>
    cases holder with
    | none =>
      refine ⟨?_, ?_, by simpa [readerStep, hri] using hc, ?_⟩
      · have := hw
        simp only [readerStep, hri] at this ⊢
        simp at this ⊢
        exact this
      · intro j
        by_cases hj : j = i
        · subst hj
          simp [readerStep, hri, setReader, PC.inside]
        · have hout := hothers j hj (Or.inr rfl)
          simp [readerStep, hri, setReader, hj, hout]
          exact fun h => hj h.symm
      · intro j
        by_cases hj : j = i
        · subst hj
          simp [readerStep, hri, setReader, readerOK]
        · simpa [readerStep, hri, setReader, hj] using hok j
    | some t => simpa [readerStep, hri] using (CacheInv.mk hw hr hc hok)
  | word0 =>
    have hh : holder = some (Thread.reader i) := hi.mp rfl
    refine ⟨by simpa [readerStep, hri] using hw, ?_, by simpa [readerStep, hri] using hc, ?_⟩
    · intro j
      by_cases hj : j = i
      · subst hj
        simp [readerStep, hri, setReader, PC.inside, hh]
      · simpa [readerStep, hri, setReader, hj] using hr j
    · intro j
      by_cases hj : j = i
      · subst hj
        simp [readerStep, hri, setReader, readerOK]
      · simpa [readerStep, hri, setReader, hj] using hok j
  | word1 =>
    have hh : holder = some (Thread.reader i) := hi.mp rfl
    refine ⟨by simpa [readerStep, hri] using hw, ?_, by simpa [readerStep, hri] using hc, ?_⟩
    · intro j
      by_cases hj : j = i
      · subst hj
        simp [readerStep, hri, setReader, PC.inside, hh]
      · simpa [readerStep, hri, setReader, hj] using hr j
    · intro j
      by_cases hj : j = i
      · subst hj
        simp only [readerOK] at hoki
        simp [readerStep, hri, setReader, readerOK, hoki]
      · simpa [readerStep, hri, setReader, hj] using hok j
  | word2 =>
    have hh : holder = some (Thread.reader i) := hi.mp rfl
    refine ⟨by simpa [readerStep, hri] using hw, ?_, by simpa [readerStep, hri] using hc, ?_⟩
    · intro j
      by_cases hj : j = i
      · subst hj
        simp [readerStep, hri, setReader, PC.inside, hh]
      · simpa [readerStep, hri, setReader, hj] using hr j
    · intro j
      by_cases hj : j = i
      · subst hj
        simp only [readerOK] at hoki
        obtain ⟨c0, c1, c2⟩ := cached
        obtain ⟨m0, m1, m2⟩ := mine
        simp only at hoki
        simp [readerStep, hri, setReader, readerOK, hoki.1, hoki.2]
      · simpa [readerStep, hri, setReader, hj] using hok j
  | beforeUnlock =>
    have hh : holder = some (Thread.reader i) := hi.mp rfl
    refine ⟨?_, ?_, by simpa [readerStep, hri] using hc, ?_⟩
    · have := hw
      rw [hh] at this
      simp only [readerStep, hri]
      simp at this ⊢
      exact this
    · intro j
      by_cases hj : j = i
      · subst hj
        simp [readerStep, hri, setReader, PC.inside]
      · have hout := hothers j hj (Or.inl hh)
        simp [readerStep, hri, setReader, hj, hout]
    · intro j
      by_cases hj : j = i
      · subst hj
        simp only [readerOK] at hoki
        have := hsnap hh
        simp [readerStep, hri, setReader, readerOK, hoki]
        exact this
      · simpa [readerStep, hri, setReader, hj] using hok j
  | finished => simpa [readerStep, hri] using (CacheInv.mk hw hr hc hok)

theorem initialCache_inv (old new : SliceHeader) : CacheInv old new (initialCache old) := by
  refine ⟨by simp [initialCache, PC.inside], ?_, rfl, ?_⟩
  · intro i
    simp [initialCache, PC.inside]
  · intro i
    simp [initialCache, readerOK]

theorem cacheStep_inv (old new : SliceHeader) (t : Thread) (st : CacheState)
    (h : CacheInv old new st) : CacheInv old new (cacheStep new t st) := by
  cases t with
  | writer => exact writerStep_inv old new st h
  | reader i => exact readerStep_inv old new i st h

theorem runSchedule_inv (old new : SliceHeader) (schedule : List Thread) :
    ∀ st, CacheInv old new st → CacheInv old new (runSchedule new schedule st) := by
  induction schedule with
  | nil => intro st h; exact h
  | cons t rest ih =>
    intro st h
    exact ih _ (cacheStep_inv old new t st h)

/-- C13: under every interleaving of the locked assignment to `cachedWarnings`
with any number of locked copies of it, each copy that has completed holds all
three words of the old slice or all three words of the new one, hence denotes
the complete old warning list or the complete new one. -/
theorem locked_reads_see_one_snapshot (old new : SliceHeader) (schedule : List Thread)
    (i : Nat)
    (hfin : ((runSchedule new schedule (initialCache old)).readers i).pc = PC.finished) :
    (((runSchedule new schedule (initialCache old)).readers i).warnings = old ∨
      ((runSchedule new schedule (initialCache old)).readers i).warnings = new) ∧
    ∀ heap : Nat → List Warning,
      sliceValue heap ((runSchedule new schedule (initialCache old)).readers i).warnings
          = sliceValue heap old ∨
      sliceValue heap ((runSchedule new schedule (initialCache old)).readers i).warnings
          = sliceValue heap new := by
  have hinv := runSchedule_inv old new schedule _ (initialCache_inv old new)
  have hok := hinv.readers_ok i
  unfold readerOK at hok
  rw [hfin] at hok
  simp only at hok
  refine ⟨hok, fun heap => ?_⟩
  rcases hok with h | h
  · left; rw [h]
  · right; rw [h]

theorem locked_reads_see_one_snapshot_witness :
    ((runSchedule ⟨2, 5, 8⟩
        [Thread.writer, Thread.writer, Thread.reader 0, Thread.writer, Thread.reader 0,
          Thread.writer, Thread.writer, Thread.reader 0, Thread.reader 0, Thread.reader 0,
          Thread.reader 0, Thread.reader 0]
        (initialCache ⟨1, 3, 4⟩)).readers 0).warnings = ⟨1, 3, 4⟩ ∨
    ((runSchedule ⟨2, 5, 8⟩
        [Thread.writer, Thread.writer, Thread.reader 0, Thread.writer, Thread.reader 0,
          Thread.writer, Thread.writer, Thread.reader 0, Thread.reader 0, Thread.reader 0,
          Thread.reader 0, Thread.reader 0]
        (initialCache ⟨1, 3, 4⟩)).readers 0).warnings = ⟨2, 5, 8⟩ :=
  (locked_reads_see_one_snapshot ⟨1, 3, 4⟩ ⟨2, 5, 8⟩
    [Thread.writer, Thread.writer, Thread.reader 0, Thread.writer, Thread.reader 0,
      Thread.writer, Thread.writer, Thread.reader 0, Thread.reader 0, Thread.reader 0,
      Thread.reader 0, Thread.reader 0] 0 rfl).1

end IoTMonitoring
